import Mathlib

/-!
Verification development for the RecipeOptimizer pipeline
(files `app/backend/pipeline/orchestrator.py`, `app/backend/pipeline/evaluator.py`,
`app/backend/pipeline/enrichers.py`, `app/backend/models.py`).

Python values flowing through the pipeline are modelled by the JSON-like
type `PyVal`; Python dictionaries become association lists (insertion
order preserved, keys unique in all inputs of interest).  Generative-model
invocations are opaque effects in the source and are modelled as oracle
functions passed as parameters.  Fallible Python code is modelled with
`Except String` where the string plays the role of `str(e)`.
Machine floats are modelled by `Rat` (exact arithmetic).
-/

/-- model of a Python/JSON value. -/
inductive PyVal where
  | vNone : PyVal
  | vBool : Bool → PyVal
  | vInt : Int → PyVal
  | vFloat : Rat → PyVal
  | vStr : String → PyVal
  | vList : List PyVal → PyVal
  | vDict : List (String × PyVal) → PyVal
deriving Inhabited

/-- the closing-brace character, written numerically. -/
def rbraceC : Char := Char.ofNat 125

/-- the opening-brace character, written numerically. -/
def lbraceC : Char := Char.ofNat 123

/-- model of the character class matched by the regex token \s (ASCII range). -/
def wsClass : List Char := [' ', '\t', '\n', '\r', Char.ofNat 11, Char.ofNat 12]

/-- membership in the regex whitespace class. -/
def isWs (c : Char) : Bool := wsClass.contains c

/-- model of the regex word-character class \w (ASCII range), used for \b. -/
def isWordChar (c : Char) : Bool := c.isAlphanum || c == '_'

/-- the informal-null token None as a character list. -/
def noneTok : List Char := ['N', 'o', 'n', 'e']

/-- decides whether pat is a prefix of s. -/
def hasPfx : List Char → List Char → Bool
  | [], _ => true
  | _ :: _, [] => false
  | p :: ps, c :: cs => p == c && hasPfx ps cs

/-- decides whether pat occurs as a contiguous substring of s. -/
def hasSub (pat : List Char) : List Char → Bool
  | [] => hasPfx pat []
  | c :: cs => hasPfx pat (c :: cs) || hasSub pat cs

/-- substring test on strings. -/
def hasSubStr (pat s : String) : Bool := hasSub pat.data s.data

/-- model of Python str.replace(old, new): replaces all non-overlapping
occurrences scanning left to right.  Fuel-driven (fuel = input length
suffices for the non-empty patterns used here) so that it reduces. -/
def replaceAllGo (pat rep : List Char) : Nat → List Char → List Char
  | _, [] => []
  | 0, s => s
  | fuel + 1, c :: cs =>
    if hasPfx pat (c :: cs) then
      rep ++ replaceAllGo pat rep fuel ((c :: cs).drop pat.length)
    else
      c :: replaceAllGo pat rep fuel cs

/-- model of Python str.replace(old, new) on character lists. -/
def replaceAll (pat rep s : List Char) : List Char := replaceAllGo pat rep s.length s

/-- match, at the head of s, the regex tok\s*None followed (when delims is
supplied) by one delimiter character that the pattern captures and the
replacement re-emits; returns the emitted replacement text and the rest of
the input.  This models the patterns of the form tok + r0x5cs*None(delim)
replaced by tok + one space + null + delim used in orchestrator.py. -/
def matchTokNone (tok : List Char) (delims : Option (List Char)) (s : List Char) :
    Option (List Char × List Char) :=
  if hasPfx tok s then
    let s1 := (s.drop tok.length).dropWhile isWs
    if hasPfx noneTok s1 then
      let s2 := s1.drop 4
      match delims with
      | none => some (tok ++ (" null".data), s2)
      | some ds =>
        match s2 with
        | [] => none
        | d :: rest =>
          if ds.contains d then some (tok ++ (" null".data) ++ [d], rest) else none
    else none
  else none

/-- left-to-right scanner applying matchTokNone at every position, the
model of one re.sub pass. -/
def subTokNoneGo (tok : List Char) (delims : Option (List Char)) :
    Nat → List Char → List Char
  | _, [] => []
  | 0, s => s
  | fuel + 1, c :: cs =>
    match matchTokNone tok delims (c :: cs) with
    | some (rep, rest) => rep ++ subTokNoneGo tok delims fuel rest
    | none => c :: subTokNoneGo tok delims fuel cs

/-- model of one re.sub pass with a tok\s*None(delim?) pattern. -/
def subTokNone (tok : List Char) (delims : Option (List Char)) (s : List Char) : List Char :=
  subTokNoneGo tok delims s.length s

/-- scanner for the word-boundary pattern: replaces every occurrence of
None that is not adjacent to word characters by null; prev carries the
character immediately preceding the scan position. -/
def subWordNoneGo : Option Char → Nat → List Char → List Char
  | _, _, [] => []
  | _, 0, s => s
  | prev, fuel + 1, c :: cs =>
    if (match prev with | none => true | some p => !isWordChar p) &&
        hasPfx noneTok (c :: cs) &&
        (match cs.drop 3 with | [] => true | d :: _ => !isWordChar d) then
      'n' :: 'u' :: 'l' :: 'l' :: subWordNoneGo (some 'e') fuel (cs.drop 3)
    else
      c :: subWordNoneGo (some c) fuel cs

/-- model of re.sub with the word-bounded None pattern, replacement null. -/
def subWordNone (s : List Char) : List Char := subWordNoneGo none s.length s

/-- the delimiter class captured by the fix_none_values regexes: comma,
closing brace, closing bracket. -/
def delimEnd : List Char := [',', rbraceC, ']']

/-- the fifteen literal replacement pairs applied by fix_none_values, in
source order (orchestrator.py lines 38-54). -/
def noneReplacements : List (String × String) :=
  [ (": None", ": null"),
    ("=None", "=null"),
    (": None,", ": null,"),
    ("\"unit\": None", "\"unit\": null"),
    ("\"notes\": None", "\"notes\": null"),
    ("None\x7d", "null\x7d"),
    ("None,", "null,"),
    ("None]", "null]"),
    (" None ", " null "),
    ("\": None", "\": null"),
    (", None,", ", null,"),
    (": None\n", ": null\n"),
    ("\":None", "\":null"),
    (": None\x7d", ": null\x7d"),
    ("\":None\x7d", "\":null\x7d") ]

/-- model of fix_none_values (orchestrator.py lines 22-63): two keyed
regex passes, the general colon pass, the fifteen literal replacements,
and the final word-bounded pass. -/
def fix_none_values_list (s : List Char) : List Char :=
  let s1 := subTokNone ("\"unit\":".data) (some delimEnd) s
  let s2 := subTokNone ("\"notes\":".data) (some delimEnd) s1
  let s3 := subTokNone [':'] (some delimEnd) s2
  let s4 := noneReplacements.foldl (fun acc p => replaceAll p.1.data p.2.data acc) s3
  subWordNone s4

/-- model of fix_none_values on strings. -/
def fix_none_values (s : String) : String := ⟨fix_none_values_list s.data⟩

/-- JSON string-character escaping used by the renderer. -/
def escJChar (c : Char) : List Char := if c == '"' || c == '\\' then ['\\', c] else [c]

/-- JSON rendering of a string literal. -/
def renderJStr (s : String) : String := ⟨'"' :: s.data.foldr (fun c acc => escJChar c ++ acc) ['"']⟩

/-- smallest power of ten clearing the denominator, if one exists below 21. -/
def decExp (q : Rat) : Option Nat := (List.range 21).find? (fun k => (q * (10 : Rat) ^ k).den == 1)

/-- left-pads a numeral string with zeros to width k. -/
def padZeros (s : String) (k : Nat) : String := ⟨List.replicate (k - s.length) '0' ++ s.data⟩

/-- decimal rendering of a Rat, standing in for the Python repr of a
float; no theorem below depends on its exact digits. -/
def ratStr (q : Rat) : String :=
  if q.den == 1 then toString q.num ++ ".0"
  else
    match decExp q with
    | some k =>
      let m : Int := (q * (10 : Rat) ^ k).num
      let sign := if m < 0 then "-" else ""
      sign ++ toString (m.natAbs / 10 ^ k) ++ "." ++ padZeros (toString (m.natAbs % 10 ^ k)) k
    | none => toString q.num ++ "/" ++ toString q.den

mutual

/-- JSON serialization of a PyVal, the model of json.dumps with default
separators. -/
def renderJson : PyVal → String
  | .vNone => "null"
  | .vBool b => if b then "true" else "false"
  | .vInt n => toString n
  | .vFloat q => ratStr q
  | .vStr s => renderJStr s
  | .vList xs => "[" ++ renderJList xs ++ "]"
  | .vDict fs => "\x7b" ++ renderJFields fs ++ "\x7d"

/-- renders array elements, comma separated. -/
def renderJList : List PyVal → String
  | [] => ""
  | [v] => renderJson v
  | v :: vs => renderJson v ++ ", " ++ renderJList vs

/-- renders object members, comma separated. -/
def renderJFields : List (String × PyVal) → String
  | [] => ""
  | [(k, v)] => renderJStr k ++ ": " ++ renderJson v
  | (k, v) :: fs => renderJStr k ++ ": " ++ renderJson v ++ ", " ++ renderJFields fs

end

/-- first-match association lookup, the model of a Python dict read. -/
def dlook (k : String) : List (String × PyVal) → Option PyVal
  | [] => none
  | (a, v) :: d => if a = k then some v else dlook k d

/-- model of a Python dict write d[k] = v: overwrites in place when the
key exists, appends otherwise. -/
def dictSet (d : List (String × PyVal)) (k : String) (v : PyVal) : List (String × PyVal) :=
  if d.any (fun p => p.1 == k) then d.map (fun p => if p.1 == k then (k, v) else p)
  else d ++ [(k, v)]

/-- model of Python dict.pop(k, default-discarded): removes the entry. -/
def dictPop (d : List (String × PyVal)) (k : String) : List (String × PyVal) :=
  d.filter (fun p => p.1 != k)

/-- model of Python dict.get(k, dflt). -/
def pyGet (d : List (String × PyVal)) (k : String) (dflt : PyVal) : PyVal :=
  (dlook k d).getD dflt

/-- model of Python truthiness (the argument of a not or an if). -/
def pyFalsy : PyVal → Bool
  | .vNone => true
  | .vBool b => !b
  | .vInt n => n == 0
  | .vFloat q => q == 0
  | .vStr s => s.isEmpty
  | .vList xs => xs.isEmpty
  | .vDict d => d.isEmpty

/-- numeric view of a PyVal as used by Python arithmetic and comparisons;
bool participates because bool is a subclass of int. -/
def asNum : PyVal → Option Rat
  | .vInt n => some (n : Rat)
  | .vFloat q => some q
  | .vBool b => some (if b then 1 else 0)
  | _ => none

/-- whitespace accepted between JSON tokens by json.loads. -/
def jWs (c : Char) : Bool := [' ', '\t', '\n', '\r'].contains c

/-- skips JSON whitespace. -/
def skipWs (s : List Char) : List Char := s.dropWhile jWs

/-- hexadecimal digit value. -/
def hexVal (c : Char) : Option Nat :=
  if '0' ≤ c && c ≤ '9' then some (c.toNat - 48)
  else if 'a' ≤ c && c ≤ 'f' then some (c.toNat - 87)
  else if 'A' ≤ c && c ≤ 'F' then some (c.toNat - 55)
  else none

/-- the single-character JSON escapes and their decoded values. -/
def escPairs : List (Char × Char) :=
  [('"', '"'), ('\\', '\\'), ('/', '/'), ('b', Char.ofNat 8), ('f', Char.ofNat 12),
   ('n', '\n'), ('r', '\r'), ('t', '\t')]

/-- decodes a single-character JSON escape via the table. -/
def decodeEsc (c : Char) : Option Char :=
  (escPairs.find? (fun p => p.1 == c)).map (fun p => p.2)

/-- scans a JSON string body (after the opening quote), returning the
decoded string and the input following the closing quote. -/
def jStrGo : Nat → List Char → List Char → Option (String × List Char)
  | 0, _, _ => none
  | fuel + 1, acc, s =>
    match s with
    | [] => none
    | '"' :: rest => some (⟨acc.reverse⟩, rest)
    | '\\' :: rest =>
      match rest with
      | 'u' :: a :: b :: c :: d :: rest2 =>
        match hexVal a, hexVal b, hexVal c, hexVal d with
        | some x, some y, some z, some w =>
          jStrGo fuel (Char.ofNat (((x * 16 + y) * 16 + z) * 16 + w) :: acc) rest2
        | _, _, _, _ => none
      | e :: rest2 =>
        match decodeEsc e with
        | some ch => jStrGo fuel (ch :: acc) rest2
        | none => none
      | [] => none
    | c :: rest => jStrGo fuel (c :: acc) rest

/-- numeric value of a list of decimal digits. -/
def digitsToNat (ds : List Char) : Nat := ds.foldl (fun a c => 10 * a + (c.toNat - 48)) 0

/-- scans a JSON number; produces vInt when neither a fraction nor an
exponent is present, vFloat otherwise, as json.loads does (leading-zero
strictness of JSON is not enforced by this model). -/
def jNum (s : List Char) : Option (PyVal × List Char) :=
  let neg := hasPfx ['-'] s
  let s1 := if neg then s.drop 1 else s
  let ds := s1.takeWhile Char.isDigit
  if ds.isEmpty then none
  else
    let s2 := s1.drop ds.length
    let ip : Nat := digitsToNat ds
    let fracState : Option (List Char) × List Char :=
      match s2 with
      | '.' :: r =>
        let fs := r.takeWhile Char.isDigit
        if fs.isEmpty then (none, s2) else (some fs, r.drop fs.length)
      | _ => (none, s2)
    let frac := fracState.1
    let s3 := fracState.2
    let expState : Option Int × List Char :=
      match s3 with
      | e :: r =>
        if e == 'e' || e == 'E' then
          let negE := hasPfx ['-'] r
          let r1 := if negE || hasPfx ['+'] r then r.drop 1 else r
          let es := r1.takeWhile Char.isDigit
          if es.isEmpty then (none, s3)
          else (some (if negE then -(digitsToNat es : Int) else (digitsToNat es : Int)), r1.drop es.length)
        else (none, s3)
      | [] => (none, s3)
    let ex := expState.1
    let s4 := expState.2
    match frac, ex with
    | none, none => some (.vInt (if neg then -(ip : Int) else (ip : Int)), s4)
    | _, _ =>
      let mant : Rat := (ip : Rat) + (match frac with
        | some fs => (digitsToNat fs : Rat) / (10 : Rat) ^ fs.length
        | none => 0)
      let scaled : Rat := match ex with
        | some e => if e < 0 then mant / (10 : Rat) ^ e.natAbs else mant * (10 : Rat) ^ e.natAbs
        | none => mant
      some (.vFloat (if neg then -scaled else scaled), s4)

mutual

/-- fuel-driven JSON value scanner, the core of the json.loads model. -/
def jVal : Nat → List Char → Option (PyVal × List Char)
  | 0, _ => none
  | fuel + 1, s0 =>
    match skipWs s0 with
    | [] => none
    | c :: cs =>
      if c == '"' then (jStrGo (cs.length + 1) [] cs).map (fun p => (.vStr p.1, p.2))
      else if c == 't' then
        if hasPfx ['r', 'u', 'e'] cs then some (.vBool true, cs.drop 3) else none
      else if c == 'f' then
        if hasPfx ['a', 'l', 's', 'e'] cs then some (.vBool false, cs.drop 4) else none
      else if c == 'n' then
        if hasPfx ['u', 'l', 'l'] cs then some (.vNone, cs.drop 3) else none
      else if c == '[' then
        match skipWs cs with
        | ']' :: rest => some (.vList [], rest)
        | _ => (jElems fuel cs).map (fun p => (.vList p.1, p.2))
      else if c == lbraceC then
        match skipWs cs with
        | [] => none
        | r :: rest =>
          if r == rbraceC then some (.vDict [], rest)
          else
            (jMembers fuel cs).map
              (fun p => (.vDict (p.1.foldl (fun d kv => dictSet d kv.1 kv.2) []), p.2))
      else jNum (c :: cs)

/-- scans the non-empty element list of a JSON array up to the closing
bracket. -/
def jElems : Nat → List Char → Option (List PyVal × List Char)
  | 0, _ => none
  | fuel + 1, s =>
    match jVal fuel s with
    | none => none
    | some (v, rest) =>
      match skipWs rest with
      | ',' :: r2 => (jElems fuel r2).map (fun p => (v :: p.1, p.2))
      | ']' :: r2 => some ([v], r2)
      | _ => none

/-- scans the non-empty member list of a JSON object up to the closing
brace; duplicate keys are resolved later, last one winning, as in Python. -/
def jMembers : Nat → List Char → Option (List (String × PyVal) × List Char)
  | 0, _ => none
  | fuel + 1, s =>
    match skipWs s with
    | [] => none
    | c :: cs =>
      if c == '"' then
        match jStrGo (cs.length + 1) [] cs with
        | none => none
        | some (k, rest) =>
          match skipWs rest with
          | ':' :: r2 =>
            match jVal fuel r2 with
            | none => none
            | some (v, r3) =>
              match skipWs r3 with
              | ',' :: r4 => (jMembers fuel r4).map (fun p => ((k, v) :: p.1, p.2))
              | d :: r4 => if d == rbraceC then some ([(k, v)], r4) else none
              | [] => none
          | _ => none
      else none

end

/-- model of json.loads: scans one JSON value and requires that only
whitespace remains. -/
def json_loads (s : String) : Option PyVal :=
  match jVal (4 * s.length + 8) s.data with
  | some (v, rest) => if (skipWs rest).isEmpty then some v else none
  | none => none

/-- result of the refinement loop together with the number of evaluator
and optimizer invocations performed. -/
structure LoopState where
  result : Except String PyVal
  evals : Nat
  revs : Nat
deriving Inhabited

/-- instrumented model of the loop body of evaluator_loop (evaluator.py
lines 103-127); evalC i cur stands for the i-th evaluator_chain.ainvoke
on the current candidate, optC j cur sugg fb for the j-th
optimizer_chain.ainvoke with the extracted suggestions and rationale;
n counts the remaining iterations of the for-range, e and r the
evaluator and optimizer calls made so far. -/
def evaluatorLoopGo (evalC : Nat → PyVal → Except String PyVal)
    (optC : Nat → PyVal → PyVal → PyVal → Except String PyVal) :
    Nat → Nat → Nat → PyVal → LoopState
  | 0, e, r, cur => ⟨.ok cur, e, r⟩
  | n + 1, e, r, cur =>
    match evalC e cur with
    | .error err => ⟨.error err, e + 1, r⟩
    | .ok ev =>
      match ev with
      | .vDict d =>
        match dlook "score" d with
        | none => ⟨.error "KeyError: score", e + 1, r⟩
        | some sv =>
          match asNum sv with
          | none => ⟨.error "TypeError: unorderable", e + 1, r⟩
          | some s =>
            if 8 ≤ s then ⟨.ok cur, e + 1, r⟩
            else
              match optC r cur (pyGet d "improvement_suggestions" (.vList []))
                  (pyGet d "rationale" (.vStr "")) with
              | .error err => ⟨.error err, e + 1, r + 1⟩
              | .ok c2 => evaluatorLoopGo evalC optC n (e + 1) (r + 1) c2
      | _ => ⟨.error "TypeError: not subscriptable", e + 1, r⟩

/-- model of evaluator_loop with iteration bound maxIter (the MAX_ITER
environment value, default 3), seeded with the Synthesize candidate. -/
def evaluator_loop (maxIter : Nat) (evalC : Nat → PyVal → Except String PyVal)
    (optC : Nat → PyVal → PyVal → PyVal → Except String PyVal) (optimized : PyVal) : LoopState :=
  evaluatorLoopGo evalC optC maxIter 0 0 optimized

/-- the expected-field list for RecipeContent (orchestrator.py line 254). -/
def recipe_content_fields : List String :=
  ["title", "ingredients", "steps", "nutrition", "cooking_time", "servings"]

/-- the expected-field list for OptimizedRecipe (line 256). -/
def optimized_recipe_fields : List String := recipe_content_fields ++ ["improvements", "diet_label"]

/-- model of filter_extra_fields (orchestrator.py lines 65-68). -/
def filter_extra_fields (d : List (String × PyVal)) (keys : List String) : List (String × PyVal) :=
  d.filter (fun p => keys.contains p.1)

/-- the exception-message sniffing of lines 275, 335 and 458. -/
def isJsonParseError (msg : String) : Bool :=
  hasSubStr "JSONDecodeError" msg || hasSubStr "Invalid json output" msg ||
    hasSubStr "OutputParserException" msg

/-- extraction of the fenced JSON block from str(e): the text between the
json fence opener and the next fence, stripped. -/
def extractFence (msg : String) : Option String :=
  match (msg.splitOn "```json").get? 1 with
  | none => none
  | some tail => some (((tail.splitOn "```").headD tail).trim)

/-- the escalating repair-and-parse ladder applied to a rescued fenced
block (orchestrator.py lines 282-304, repeated verbatim at 342-364 and
465-487): fix_none_values then loads; two more regex passes and two
replacements then loads; the unit/notes replacements and the word-bounded
pass then loads. -/
def escalate (jstr : String) : Option PyVal :=
  let f1 := fix_none_values jstr
  match json_loads f1 with
  | some v => some v
  | none =>
    let a1 := subTokNone [':'] none f1.data
    let a2 := subTokNone ['='] none a1
    let a3 := replaceAll "\": None".data "\": null".data a2
    let a4 := replaceAll "\":None".data "\":null".data a3
    match json_loads ⟨a4⟩ with
    | some v => some v
    | none =>
      let b1 := replaceAll "\"unit\": None".data "\"unit\": null".data a4
      let b2 := replaceAll "\"notes\": None".data "\"notes\": null".data b1
      json_loads ⟨subWordNone b2⟩

/-- outcomes supplied by the environment for one guarded stage: the first
chain call (with callbacks), the token count it records, and the results
of up to two bare re-invocations of the same chain. -/
structure StageOracle where
  first : Except String PyVal
  tokens : Nat
  fb1 : Except String PyVal
  fb2 : Except String PyVal

/-- recovery ladder of a guarded stage after the first invocation raised
with message msg; post is the stage-specific post-processing of a rescued
raw value (field filtering, or diet-label projection). -/
def stageRecover (msg : String) (post : PyVal → Except String PyVal)
    (fb1 fb2 : Except String PyVal) : Except String PyVal :=
  if isJsonParseError msg then
    match extractFence msg with
    | some jstr =>
      match escalate jstr with
      | some raw =>
        match post raw with
        | .ok v => .ok v
        | .error _ => fb1
      | none => fb1
    | none =>
      match fb1 with
      | .ok v => .ok v
      | .error _ => fb2
  else fb1

/-- model of one guarded stage invocation (the try/except blocks wrapping
parse_chain, router_chain and orchestrator_chain inside run_pipeline);
yields the stage value with the token count that is logged: the recorded
count on the happy path, the length-based estimate after an exception. -/
def stageInvoke (o : StageOracle) (post : PyVal → Except String PyVal) (est : Nat) :
    Except String (PyVal × Nat) :=
  match o.first with
  | .ok v => .ok (v, o.tokens)
  | .error e =>
    match stageRecover e post o.fb1 o.fb2 with
    | .ok v => .ok (v, est)
    | .error e2 => .error e2

/-- parse-stage post-processing: keep only expected fields (line 306). -/
def postFilter (keys : List String) : PyVal → Except String PyVal
  | .vDict d => .ok (.vDict (filter_extra_fields d keys))
  | _ => .error "AttributeError: items"

/-- router-stage post-processing: project the diet_label field with
default balanced (line 366). -/
def postRouter : PyVal → Except String PyVal
  | .vDict d => .ok (.vDict [("diet_label", pyGet d "diet_label" (.vStr "balanced"))])
  | _ => .error "AttributeError: get"

/-- model of v.get(k, dflt) on an arbitrary value: AttributeError unless
the value is a dict. -/
def pyGetAttr (v : PyVal) (k : String) (dflt : PyVal) : Except String PyVal :=
  match v with
  | .vDict d => .ok (pyGet d k dflt)
  | _ => .error "AttributeError: get"

/-- model of the asyncio.gather join of the three enrichment calls
(orchestrator.py lines 397-404): all three must succeed, otherwise the
first error in the bundle propagates and no triple is produced. -/
def enrich_gather (n a f : Except String PyVal) : Except String (PyVal × PyVal × PyVal) :=
  match n with
  | .error e => .error e
  | .ok nv =>
    match a with
    | .error e => .error e
    | .ok av =>
      match f with
      | .error e => .error e
      | .ok fv => .ok (nv, av, fv)

/-- membership of a string in a Python list. -/
def listHasStr (xs : List PyVal) (s : String) : Bool :=
  xs.any (fun v => match v with | .vStr t => t == s | _ => false)

/-- model of lines 418-432: attach the nutrition annotation to the parsed
artifact, tolerating a non-dict parse result. -/
def enhanceParsed (parsed nut : PyVal) : PyVal :=
  match parsed with
  | .vDict d => .vDict (dictSet d "nutrition" nut)
  | .vList (x :: _) =>
    match x with
    | .vDict d => .vDict (dictSet d "nutrition" nut)
    | _ => .vDict [("title", .vStr "Parsed Recipe"), ("ingredients", .vList []),
        ("steps", .vList []), ("nutrition", nut)]
  | _ => .vDict [("title", .vStr "Parsed Recipe"), ("ingredients", .vList []),
      ("steps", .vList []), ("nutrition", nut)]

/-- model of lines 505-506: add the nutrition annotation to the optimized
recipe when absent, following the Python in and subscript-assignment
semantics on each shape. -/
def addNutritionIfMissing (opt nut : PyVal) : Except String PyVal :=
  match opt with
  | .vDict d =>
    .ok (.vDict (if (dlook "nutrition" d).isSome then d else d ++ [("nutrition", nut)]))
  | .vList xs =>
    if listHasStr xs "nutrition" then .ok (.vList xs) else .error "TypeError: list indices"
  | .vStr s =>
    if hasSubStr "nutrition" s then .ok (.vStr s) else .error "TypeError: str indices"
  | _ => .error "TypeError: argument not iterable"

/-- model of the per-ingredient quantity coercion inside normalize_recipe
(orchestrator.py lines 535-541); bool appears because Python treats bool
as an int. -/
def normalize_ingredient (ing : List (String × PyVal)) : List (String × PyVal) :=
  match dlook "quantity" ing with
  | some (.vInt n) => dictSet ing "quantity" (.vStr (toString n))
  | some (.vFloat q) => dictSet ing "quantity" (.vStr (ratStr q))
  | some (.vBool b) => dictSet ing "quantity" (.vStr (if b then "True" else "False"))
  | _ => ing

/-- model of the servings fix (lines 546-554): a string servings value is
replaced by the integer value of its leading digit run, or the field is
removed when there is no digit prefix. -/
def normalize_servings (d : List (String × PyVal)) : List (String × PyVal) :=
  match dlook "servings" d with
  | some (.vStr s) =>
    let ds := s.data.takeWhile Char.isDigit
    if ds.isEmpty then dictPop d "servings"
    else dictSet d "servings" (.vInt (digitsToNat ds))
  | _ => d

/-- the allowed-field list of normalize_recipe (lines 557-560). -/
def allowed_fields : List String :=
  ["title", "ingredients", "steps", "nutrition", "cooking_time",
   "servings", "improvements", "diet_label"]

/-- dict payload of an ingredient entry, when it is a dict. -/
def asDict : PyVal → Option (List (String × PyVal))
  | .vDict d => some d
  | _ => none

/-- dict payloads of all entries of an ingredients list; unavailable as
soon as one entry is not a dict (the Python copy would raise there). -/
def ingDicts : List PyVal → Option (List (List (String × PyVal)))
  | [] => some []
  | x :: xs =>
    match asDict x with
    | some d => (ingDicts xs).map (fun ds => d :: ds)
    | none => none

/-- model of normalize_recipe (orchestrator.py lines 525-566) on a dict:
pass-through when the dict is empty or lacks the ingredients key,
otherwise quantity stringification, servings coercion and the
allowed-field filter; iterating a non-list ingredients value or copying a
non-dict ingredient raises in Python and is an error here. -/
def normalize_recipe (recipe : List (String × PyVal)) :
    Except String (List (String × PyVal)) :=
  if recipe.isEmpty || (dlook "ingredients" recipe).isNone then .ok recipe
  else
    match dlook "ingredients" recipe with
    | some (.vList ings) =>
      match ingDicts ings with
      | some ds =>
        let d1 := dictSet recipe "ingredients"
          (.vList (ds.map (fun i => .vDict (normalize_ingredient i))))
        .ok (filter_extra_fields (normalize_servings d1) allowed_fields)
      | none => .error "TypeError: mapping unpack"
    | _ => .error "TypeError: not iterable"

/-- model of normalize_recipe on an arbitrary value, following the
truthiness test and the membership/copy semantics of line 529 onward. -/
def normalize_recipe_v : PyVal → Except String PyVal
  | .vDict d => (normalize_recipe d).map .vDict
  | .vNone => .ok .vNone
  | .vBool b => if b then .error "TypeError: argument not iterable" else .ok (.vBool b)
  | .vInt n => if n == 0 then .ok (.vInt n) else .error "TypeError: argument not iterable"
  | .vFloat q => if q == 0 then .ok (.vFloat q) else .error "TypeError: argument not iterable"
  | .vStr s =>
    if s.isEmpty then .ok (.vStr s)
    else if hasSubStr "ingredients" s then .error "TypeError: str copy"
    else .ok (.vStr s)
  | .vList xs =>
    if xs.isEmpty then .ok (.vList xs)
    else if listHasStr xs "ingredients" then .error "TypeError: list copy"
    else .ok (.vList xs)

/-- the seven-field macro difference record (models.py lines 52-59). -/
structure MacroDelta where
  calories : Rat := 0
  protein_g : Rat := 0
  fat_g : Rat := 0
  carbs_g : Rat := 0
  sugar_g : Rat := 0
  fiber_g : Rat := 0
  sodium_mg : Rat := 0
deriving DecidableEq, Inhabited

/-- numeric view of nutrition.get(k, 0). -/
def nutValOpt (d : List (String × PyVal)) (k : String) : Option Rat :=
  asNum (pyGet d k (.vInt 0))

/-- one field of the delta: optimized minus original, unavailable when a
present operand is not a number. -/
def deltaField (od pd : List (String × PyVal)) (k : String) : Option Rat :=
  match nutValOpt pd k, nutValOpt od k with
  | some a, some b => some (a - b)
  | _, _ => none

/-- the seven macro deltas, failing on the first non-numeric operand. -/
def macroDeltaOpt (od pd : List (String × PyVal)) : Option MacroDelta :=
  match deltaField od pd "calories", deltaField od pd "protein_g", deltaField od pd "fat_g",
      deltaField od pd "carbs_g", deltaField od pd "sugar_g", deltaField od pd "fiber_g",
      deltaField od pd "sodium_mg" with
  | some c, some p, some f, some cb, some sg, some fb, some sd =>
    some ⟨c, p, f, cb, sg, fb, sd⟩
  | _, _, _, _, _, _, _ => none

/-- model of calculate_macro_delta (orchestrator.py lines 183-203): the
zero record when either extracted nutrition value is falsy, the
field-by-field difference otherwise. -/
def calculate_macro_delta (original optimized : List (String × PyVal)) :
    Except String MacroDelta :=
  let no0 := pyGet original "nutrition" (.vDict [])
  let no1 := pyGet optimized "nutrition" (.vDict [])
  if pyFalsy no0 || pyFalsy no1 then .ok {}
  else
    match no0, no1 with
    | .vDict od, .vDict pd =>
      match macroDeltaOpt od pd with
      | some m => .ok m
      | none => .error "TypeError: unsupported operand"
    | _, _ => .error "AttributeError: get"

/-- calculate_macro_delta lifted to arbitrary recipe values. -/
def calculate_macro_delta_v (original optimized : PyVal) : Except String MacroDelta :=
  match original, optimized with
  | .vDict od, .vDict pd => calculate_macro_delta od pd
  | _, _ => .error "AttributeError: get"

/-- typed quantity of an Ingredient (models.py line 39). -/
inductive QuantityV where
  | qStr : String → QuantityV
  | qInt : Int → QuantityV
  | qFloat : Rat → QuantityV
deriving Inhabited

/-- typed Ingredient (models.py lines 37-41). -/
structure IngredientM where
  name : String
  quantity : Option QuantityV := none
  unit : Option String := none
  notes : Option String := none
deriving Inhabited

/-- typed Nutrition (models.py lines 43-50). -/
structure NutritionM where
  calories : Option Rat := none
  protein_g : Option Rat := none
  fat_g : Option Rat := none
  carbs_g : Option Rat := none
  sugar_g : Option Rat := none
  fiber_g : Option Rat := none
  sodium_mg : Option Rat := none
deriving Inhabited

/-- typed RecipeContent (models.py lines 65-71). -/
structure RecipeContentM where
  title : String
  ingredients : List IngredientM
  steps : List String
  nutrition : Option NutritionM := none
  cooking_time : Option Int := none
  servings : Option Int := none
deriving Inhabited

/-- typed OptimizedRecipe (models.py lines 73-74). -/
structure OptimizedRecipeM extends RecipeContentM where
  improvements : List String := []
deriving Inhabited

/-- typed Badges (models.py lines 61-63). -/
structure BadgesM where
  allergens : List String := []
  macros_delta : MacroDelta := {}
deriving Inhabited

/-- typed ProcessResponse (models.py lines 80-84): both artifacts are
required, non-optional fields. -/
structure ProcessResponseM where
  original : RecipeContentM
  optimized : OptimizedRecipeM
  diet_label : String
  badges : BadgesM
deriving Inhabited

/-- pydantic-style coercion to str (numbers admitted, v1 style). -/
def coerceStr : PyVal → Except String String
  | .vStr s => .ok s
  | .vInt n => .ok (toString n)
  | .vFloat q => .ok (ratStr q)
  | .vBool b => .ok (if b then "True" else "False")
  | _ => .error "ValidationError: str type expected"

/-- pydantic-style coercion to an optional str. -/
def coerceOptStr : Option PyVal → Except String (Option String)
  | none => .ok none
  | some .vNone => .ok none
  | some v => (coerceStr v).map some

/-- pydantic-style coercion to an optional int; floats truncate toward
zero as int() does. -/
def coerceOptInt : Option PyVal → Except String (Option Int)
  | none => .ok none
  | some .vNone => .ok none
  | some (.vInt n) => .ok (some n)
  | some (.vBool b) => .ok (some (if b then 1 else 0))
  | some (.vFloat q) => .ok (some (q.num / (q.den : Int)))
  | some _ => .error "ValidationError: int type expected"

/-- pydantic-style coercion to an optional float; numeric-string coercion
is not modelled (no claim depends on it). -/
def coerceOptFloat : Option PyVal → Except String (Option Rat)
  | none => .ok none
  | some .vNone => .ok none
  | some v =>
    match asNum v with
    | some q => .ok (some q)
    | none => .error "ValidationError: float type expected"

/-- coercion of the quantity union field str-or-int-or-float. -/
def coerceOptQuantity : Option PyVal → Except String (Option QuantityV)
  | none => .ok none
  | some .vNone => .ok none
  | some (.vStr s) => .ok (some (.qStr s))
  | some (.vInt n) => .ok (some (.qInt n))
  | some (.vBool b) => .ok (some (.qInt (if b then 1 else 0)))
  | some (.vFloat q) => .ok (some (.qFloat q))
  | some _ => .error "ValidationError: quantity type"

/-- extracts a required field. -/
def requireField (d : List (String × PyVal)) (k : String) : Except String PyVal :=
  match dlook k d with
  | some v => .ok v
  | none => .error ("ValidationError: field required " ++ k)

/-- elementwise validation of a list, failing on the first bad element. -/
def exList (f : PyVal → Except String String) : List PyVal → Except String (List String)
  | [] => .ok []
  | x :: xs =>
    match f x with
    | .error e => .error e
    | .ok a =>
      match exList f xs with
      | .error e => .error e
      | .ok as => .ok (a :: as)

/-- validation of one ingredient dict. -/
def IngredientM.fromDict (d : List (String × PyVal)) : Except String IngredientM :=
  match requireField d "name" with
  | .error e => .error e
  | .ok nv =>
    match coerceStr nv with
    | .error e => .error e
    | .ok nm =>
      match coerceOptQuantity (dlook "quantity" d) with
      | .error e => .error e
      | .ok q =>
        match coerceOptStr (dlook "unit" d) with
        | .error e => .error e
        | .ok u =>
          match coerceOptStr (dlook "notes" d) with
          | .error e => .error e
          | .ok no2 => .ok ⟨nm, q, u, no2⟩

/-- validation of a nutrition dict (extra keys ignored, as pydantic does). -/
def NutritionM.fromDict (d : List (String × PyVal)) : Except String NutritionM :=
  match coerceOptFloat (dlook "calories" d), coerceOptFloat (dlook "protein_g" d),
      coerceOptFloat (dlook "fat_g" d), coerceOptFloat (dlook "carbs_g" d),
      coerceOptFloat (dlook "sugar_g" d), coerceOptFloat (dlook "fiber_g" d),
      coerceOptFloat (dlook "sodium_mg" d) with
  | .ok c, .ok p, .ok f, .ok cb, .ok sg, .ok fb, .ok sd => .ok ⟨c, p, f, cb, sg, fb, sd⟩
  | _, _, _, _, _, _, _ => .error "ValidationError: float type expected"

/-- elementwise validation of an ingredients list. -/
def ingListVal : List PyVal → Except String (List IngredientM)
  | [] => .ok []
  | x :: xs =>
    match x with
    | .vDict d =>
      match IngredientM.fromDict d with
      | .error e => .error e
      | .ok a =>
        match ingListVal xs with
        | .error e => .error e
        | .ok as => .ok (a :: as)
    | _ => .error "ValidationError: ingredient dict expected"

/-- validation of the ingredients field. -/
def ingredientsFromVal : PyVal → Except String (List IngredientM)
  | .vList xs => ingListVal xs
  | _ => .error "ValidationError: ingredients list required"

/-- validation of the steps field. -/
def stepsFromVal : PyVal → Except String (List String)
  | .vList xs => exList coerceStr xs
  | _ => .error "ValidationError: steps list required"

/-- validation of the optional nutrition field. -/
def nutritionFromVal : Option PyVal → Except String (Option NutritionM)
  | none => .ok none
  | some .vNone => .ok none
  | some (.vDict d) => (NutritionM.fromDict d).map some
  | some _ => .error "ValidationError: nutrition dict expected"

/-- validation of a RecipeContent payload, the model of
RecipeContent(**d). -/
def RecipeContentM.fromDict (d : List (String × PyVal)) : Except String RecipeContentM :=
  match requireField d "title" with
  | .error e => .error e
  | .ok tv =>
    match coerceStr tv with
    | .error e => .error e
    | .ok t =>
      match requireField d "ingredients" with
      | .error e => .error e
      | .ok iv =>
        match ingredientsFromVal iv with
        | .error e => .error e
        | .ok ing =>
          match requireField d "steps" with
          | .error e => .error e
          | .ok sv =>
            match stepsFromVal sv with
            | .error e => .error e
            | .ok st =>
              match nutritionFromVal (dlook "nutrition" d) with
              | .error e => .error e
              | .ok nu =>
                match coerceOptInt (dlook "cooking_time" d) with
                | .error e => .error e
                | .ok ct =>
                  match coerceOptInt (dlook "servings" d) with
                  | .error e => .error e
                  | .ok se => .ok ⟨t, ing, st, nu, ct, se⟩

/-- validation of the improvements field with its empty default. -/
def improvementsFromVal : Option PyVal → Except String (List String)
  | none => .ok []
  | some (.vList xs) => exList coerceStr xs
  | some _ => .error "ValidationError: improvements list expected"

/-- validation of an OptimizedRecipe payload, the model of
OptimizedRecipe(**d). -/
def OptimizedRecipeM.fromDict (d : List (String × PyVal)) : Except String OptimizedRecipeM :=
  match RecipeContentM.fromDict d with
  | .error e => .error e
  | .ok base =>
    match improvementsFromVal (dlook "improvements" d) with
    | .error e => .error e
    | .ok imp => .ok ⟨base, imp⟩

/-- allergen_info.get allergens with default, validated as a string list. -/
def allergensFromVal (v : PyVal) : Except String (List String) :=
  match pyGetAttr v "allergens" (.vList []) with
  | .error e => .error e
  | .ok av =>
    match av with
    | .vList xs => exList coerceStr xs
    | _ => .error "ValidationError: allergens list expected"

/-- a double-star unpack requires a dict. -/
def requireDict : PyVal → Except String (List (String × PyVal))
  | .vDict d => .ok d
  | _ => .error "TypeError: mapping unpack"

/-- model of the ProcessResponse construction (orchestrator.py lines
576-584) including the pydantic validation of both artifacts. -/
def buildResponse (orig opt diet allerg : PyVal) (md : MacroDelta) :
    Except String ProcessResponseM :=
  match requireDict orig with
  | .error e => .error e
  | .ok od =>
    match RecipeContentM.fromDict od with
    | .error e => .error e
    | .ok o =>
      match requireDict opt with
      | .error e => .error e
      | .ok pd =>
        match OptimizedRecipeM.fromDict pd with
        | .error e => .error e
        | .ok p =>
          match coerceStr diet with
          | .error e => .error e
          | .ok dl =>
            match allergensFromVal allerg with
            | .error e => .error e
            | .ok al => .ok ⟨o, p, dl, ⟨al, md⟩⟩

/-- audit record handed to log_llm_run (models.py LLMRun); the prompt
text, latency and timestamp are elided since no claim refers to them. -/
structure LLMRunM where
  step_name : String
  response : PyVal
  tokens_used : Nat

/-- oracle bundle standing for the generative capability and the vector
store: a StageOracle per guarded stage, plain outcomes for the three
unguarded enrichment chains, indexed oracles for the two chains inside
the refinement loop, and the outcome of store_in_vectordb. -/
structure PipelineOracles where
  parse : StageOracle
  router : StageOracle
  nutrition : Except String PyVal
  allergen : Except String PyVal
  flavor : Except String PyVal
  orch : StageOracle
  evalC : Nat → PyVal → Except String PyVal
  optC : Nat → PyVal → PyVal → PyVal → Except String PyVal
  vectordb : Except String Unit

/-- model of run_pipeline (orchestrator.py lines 238-586): the Except
component is the returned response or the propagated exception; the list
component is the sequence of audit records written before returning
(records already written persist when a later stage fails). -/
def run_pipeline (maxIter : Nat) (o : PipelineOracles) (recipe_text goal : String) :
    Except String ProcessResponseM × List LLMRunM :=
  match stageInvoke o.parse (postFilter recipe_content_fields) (recipe_text.length / 4) with
  | .error e => (.error e, [])
  | .ok (parsed, tokA) =>
    let log1 : List LLMRunM := [⟨"parse", parsed, tokA⟩]
    let rgJson := renderJson (.vDict [("recipe", parsed), ("goal", .vStr goal)])
    match stageInvoke o.router postRouter (rgJson.length / 4) with
    | .error e => (.error e, log1)
    | .ok (routerRes, tokB) =>
      let log2 := log1 ++ [⟨"router", routerRes, tokB⟩]
      match pyGetAttr routerRes "diet_label" (.vStr "balanced") with
      | .error e => (.error e, log2)
      | .ok dietLabel =>
        let tokEst := (renderJson parsed).length / 4
        match enrich_gather o.nutrition o.allergen o.flavor with
        | .error e => (.error e, log2)
        | .ok (nutritionInfo, allergenInfo, flavorProfile) =>
          let log3 := log2 ++ [⟨"nutrition", nutritionInfo, tokEst⟩,
            ⟨"allergen", allergenInfo, tokEst⟩, ⟨"flavor", flavorProfile, tokEst⟩]
          let enhanced := enhanceParsed parsed nutritionInfo
          let orchJson := renderJson (.vDict [("recipe", enhanced), ("goal", .vStr goal),
            ("diet_label", dietLabel)])
          match stageInvoke o.orch (postFilter optimized_recipe_fields) (orchJson.length / 3) with
          | .error e => (.error e, log3)
          | .ok (opt0, tokD) =>
            let log4 := log3 ++ [⟨"orchestrator", opt0, tokD⟩]
            match addNutritionIfMissing opt0 nutritionInfo with
            | .error e => (.error e, log4)
            | .ok optimized =>
              let evJson := renderJson (.vDict [("original", enhanced),
                ("optimized", optimized), ("goal", .vStr goal)])
              match (evaluator_loop maxIter o.evalC o.optC optimized).result with
              | .error e => (.error e, log4)
              | .ok finalRecipe =>
                let log5 := log4 ++ [⟨"evaluator", finalRecipe, evJson.length / 4⟩]
                match o.vectordb with
                | .error e => (.error e, log5)
                | .ok _ =>
                  match normalize_recipe_v enhanced with
                  | .error e => (.error e, log5)
                  | .ok parsedNorm =>
                    match normalize_recipe_v finalRecipe with
                    | .error e => (.error e, log5)
                    | .ok finalNorm =>
                      match calculate_macro_delta_v enhanced finalRecipe with
                      | .error e => (.error e, log5)
                      | .ok md =>
                        match buildResponse parsedNorm finalNorm dietLabel allergenInfo md with
                        | .error e => (.error e, log5)
                        | .ok resp => (.ok resp, log5)

/-- specification-side view of one nutrition field: the numeric value of
the entry when present, zero when the key is absent. -/
def nutVal (d : List (String × PyVal)) (k : String) : Rat :=
  match dlook k d with
  | some v => (asNum v).getD 0
  | none => 0

/-- a small well-formed parsed recipe for the concrete runs below. -/
def sampleParsed : PyVal :=
  .vDict [("title", .vStr "Muffins"),
    ("ingredients", .vList [.vDict [("name", .vStr "flour"), ("quantity", .vStr "2"),
      ("unit", .vStr "cups")]]),
    ("steps", .vList [.vStr "mix", .vStr "bake"])]

/-- nutrition annotation of the original recipe in the concrete runs. -/
def sampleNutrition : PyVal :=
  .vDict [("calories", .vInt 280), ("sugar_g", .vFloat (243 / 10))]

/-- nutrition carried by the optimized recipe in the concrete runs. -/
def sampleOptNutrition : PyVal :=
  .vDict [("calories", .vInt 220), ("sugar_g", .vFloat (128 / 10))]

/-- the synthesized candidate used by the concrete runs. -/
def sampleOptimized : PyVal :=
  .vDict [("title", .vStr "Better Muffins"),
    ("ingredients", .vList [.vDict [("name", .vStr "flour"), ("quantity", .vStr "2"),
      ("unit", .vStr "cups")]]),
    ("steps", .vList [.vStr "mix", .vStr "bake"]),
    ("nutrition", sampleOptNutrition),
    ("improvements", .vList [.vStr "less sugar"])]

/-- a stage oracle whose first invocation succeeds. -/
def okStage (v : PyVal) : StageOracle := ⟨.ok v, 42, .error "unused", .error "unused"⟩

/-- oracles for a fully successful run whose refinement loop performs one
evaluation (score 7) and one revision before the bound stops it. -/
def auditOracles : PipelineOracles :=
  ⟨okStage sampleParsed,
   okStage (.vDict [("diet_label", .vStr "low-sugar")]),
   .ok sampleNutrition,
   .ok (.vDict [("allergens", .vList [.vStr "Wheat"])]),
   .ok (.vDict [("primary_flavors", .vList [.vStr "sweet"])]),
   okStage sampleOptimized,
   fun _ _ => .ok (.vDict [("score", .vInt 7), ("rationale", .vStr "close"),
     ("improvement_suggestions", .vList [.vStr "more fiber"])]),
   fun _ c _ _ => .ok c,
   .ok ()⟩

/-- the same oracles with a failing vector-store call. -/
def idxFailOracles : PipelineOracles := { auditOracles with vectordb := .error "chroma down" }

/-- the same oracles with a permanently failing allergen enrichment. -/
def enrichFailOracles : PipelineOracles := { auditOracles with allergen := .error "enrich boom" }
theorem hasPfx_append {p t : List Char} (r : List Char) (h : hasPfx p t = true) :
    hasPfx p (t ++ r) = true := by
  induction p generalizing t with
  | nil => simp [hasPfx]
  | cons a ps ih =>
    cases t with
    | nil => simp [hasPfx] at h
    | cons c cs =>
      simp [hasPfx] at h ⊢
      exact ⟨h.1, ih h.2⟩

theorem hasSub_of_drop {p s : List Char} (n : Nat) (h : hasPfx p (s.drop n) = true) :
    hasSub p s = true := by
  induction s generalizing n with
  | nil => cases n <;> simpa [hasSub] using h
  | cons c cs ih =>
    cases n with
    | zero => simp only [List.drop] at h; simp [hasSub, h]
    | succ m =>
      simp only [List.drop] at h
      simp [hasSub, ih m h]

theorem exists_drop_of_hasSub {p s : List Char} (h : hasSub p s = true) :
    ∃ n, hasPfx p (s.drop n) = true := by
  induction s with
  | nil => exact ⟨0, by simpa [hasSub] using h⟩
  | cons c cs ih =>
    simp only [hasSub, Bool.or_eq_true] at h
    cases h with
    | inl h => exact ⟨0, by simpa using h⟩
    | inr h =>
      obtain ⟨n, hn⟩ := ih h
      exact ⟨n + 1, by simpa using hn⟩

theorem hasPfx_decomp {p t : List Char} (h : hasPfx p t = true) :
    t = p ++ t.drop p.length := by
  induction p generalizing t with
  | nil => simp
  | cons a ps ih =>
    cases t with
    | nil => simp [hasPfx] at h
    | cons c cs =>
      simp only [hasPfx, Bool.and_eq_true, beq_iff_eq] at h
      obtain ⟨h1, h2⟩ := h
      simp only [List.length_cons, List.drop_succ_cons, List.cons_append]
      exact congrArg₂ (· :: ·) h1.symm (ih h2)

theorem hasSub_append_left {p t : List Char} (x : List Char) (h : hasSub p t = true) :
    hasSub p (x ++ t) = true := by
  induction x with
  | nil => simpa using h
  | cons a xs ih => simp [hasSub, ih]

theorem hasSub_of_hasPfx_of_hasSub {pat s : List Char}
    (hps : hasPfx pat s = true) (hnp : hasSub noneTok pat = true) :
    hasSub noneTok s = true := by
  obtain ⟨n, hn⟩ := exists_drop_of_hasSub hnp
  have hlen : pat.drop n ≠ [] := by
    intro hemp
    rw [hemp] at hn
    exact absurd hn (by simp [noneTok, hasPfx])
  have hnle : n ≤ pat.length := by
    by_contra hgt
    exact hlen (List.drop_eq_nil_of_le (le_of_lt (lt_of_not_le hgt)))
  have hdec := hasPfx_decomp hps
  rw [hdec]
  apply hasSub_of_drop n
  rw [List.drop_append_eq_append_drop]
  exact hasPfx_append _ (by simpa [Nat.sub_eq_zero_of_le hnle] using hn)

theorem hasSub_cons_false {p : List Char} {c : Char} {cs : List Char}
    (h : hasSub p (c :: cs) = false) :
    hasPfx p (c :: cs) = false ∧ hasSub p cs = false := by
  simpa [hasSub, Bool.or_eq_false_iff] using h

theorem replaceAllGo_id {pat rep : List Char} (hne : hasSub noneTok pat = true) :
    ∀ fuel s, hasSub noneTok s = false → replaceAllGo pat rep fuel s = s := by
  intro fuel
  induction fuel with
  | zero => intro s h; cases s <;> rfl
  | succ n ih =>
    intro s h
    cases s with
    | nil => rfl
    | cons c cs =>
      obtain ⟨h1, h2⟩ := hasSub_cons_false h
      have hp : hasPfx pat (c :: cs) = false := by
        by_contra hc
        rw [hasSub_of_hasPfx_of_hasSub (by simpa using hc) hne] at h
        exact absurd h (by simp)
      simp only [replaceAllGo, hp, Bool.false_eq_true, if_false]
      exact congrArg (c :: ·) (ih cs h2)

theorem replaceAll_id {pat rep : List Char} (hne : hasSub noneTok pat = true)
    {s : List Char} (h : hasSub noneTok s = false) : replaceAll pat rep s = s :=
  replaceAllGo_id hne s.length s h

theorem matchTokNone_none {tok : List Char} {delims : Option (List Char)} {s : List Char}
    (h : hasSub noneTok s = false) : matchTokNone tok delims s = none := by
  unfold matchTokNone
  by_cases h1 : hasPfx tok s = true
  · have h2 : hasPfx noneTok ((s.drop tok.length).dropWhile isWs) = false := by
      by_contra hc
      have hc2 : hasPfx noneTok ((s.drop tok.length).dropWhile isWs) = true := by simpa using hc
      have hdec := hasPfx_decomp h1
      have hsplit : s.drop tok.length =
          (s.drop tok.length).takeWhile isWs ++ (s.drop tok.length).dropWhile isWs :=
        (List.takeWhile_append_dropWhile isWs (s.drop tok.length)).symm
      have hssub : hasSub noneTok s = true := by
        rw [hdec, hsplit]
        exact hasSub_append_left _ (hasSub_append_left _ (hasSub_of_drop 0 (by simpa using hc2)))
      rw [hssub] at h
      exact absurd h (by simp)
    simp [h1, h2]
  · simp only [Bool.not_eq_true] at h1
    simp [h1]

theorem subTokNoneGo_id {tok : List Char} {delims : Option (List Char)} :
    ∀ fuel s, hasSub noneTok s = false → subTokNoneGo tok delims fuel s = s := by
  intro fuel
  induction fuel with
  | zero => intro s h; cases s <;> rfl
  | succ n ih =>
    intro s h
    cases s with
    | nil => rfl
    | cons c cs =>
      obtain ⟨h1, h2⟩ := hasSub_cons_false h
      simp only [subTokNoneGo, matchTokNone_none h]
      exact congrArg (c :: ·) (ih cs h2)

theorem subTokNone_id {tok : List Char} {delims : Option (List Char)} {s : List Char}
    (h : hasSub noneTok s = false) : subTokNone tok delims s = s :=
  subTokNoneGo_id s.length s h

theorem subWordNoneGo_id :
    ∀ fuel prev s, hasSub noneTok s = false → subWordNoneGo prev fuel s = s := by
  intro fuel
  induction fuel with
  | zero => intro prev s h; cases s <;> rfl
  | succ n ih =>
    intro prev s h
    cases s with
    | nil => rfl
    | cons c cs =>
      obtain ⟨h1, h2⟩ := hasSub_cons_false h
      simp only [subWordNoneGo, h1, Bool.and_false, Bool.false_and, Bool.and_self,
        Bool.false_eq_true, if_false]
      exact congrArg (c :: ·) (ih (some c) cs h2)

theorem subWordNone_id {s : List Char} (h : hasSub noneTok s = false) : subWordNone s = s :=
  subWordNoneGo_id s.length none s h

theorem foldl_replace_id (ps : List (String × String)) :
    (∀ p ∈ ps, hasSub noneTok p.1.data = true) →
    ∀ {s : List Char}, hasSub noneTok s = false →
    ps.foldl (fun acc p => replaceAll p.1.data p.2.data acc) s = s := by
  induction ps with
  | nil => intro _ s h; rfl
  | cons p ps ih =>
    intro hall s h
    simp only [List.foldl_cons]
    rw [replaceAll_id (hall p (by simp)) h]
    exact ih (fun q hq => hall q (by simp [hq])) h

theorem fix_none_values_list_id {s : List Char} (h : hasSub noneTok s = false) :
    fix_none_values_list s = s := by
  simp only [fix_none_values_list]
  rw [subTokNone_id h, subTokNone_id h, subTokNone_id h,
    foldl_replace_id noneReplacements (by decide) h, subWordNone_id h]

theorem fix_none_values_id {s : String} (h : hasSub noneTok s.data = false) :
    fix_none_values s = s := by
  unfold fix_none_values
  rw [fix_none_values_list_id h]

theorem dlook_map_set (k : String) (v : PyVal) :
    ∀ d : List (String × PyVal), (d.any fun p => p.1 == k) = true →
    dlook k (d.map (fun p => if p.1 == k then (k, v) else p)) = some v := by
  intro d
  induction d with
  | nil => simp
  | cons a d ih =>
    intro hany
    cases a with
    | mk a1 a2 =>
      by_cases hk : a1 = k
      · simp only [List.map_cons]
        rw [if_pos (by simpa using hk)]
        simp [dlook]
      · have hbk : (a1 == k) = false := by simpa using hk
        simp only [List.map_cons]
        rw [if_neg (by simp [hbk])]
        simp only [dlook]
        rw [if_neg hk]
        apply ih
        simpa [hbk] using hany

theorem dlook_append_last (k : String) (v : PyVal) :
    ∀ d : List (String × PyVal), dlook k (d ++ [(k, v)]) = some ((dlook k d).getD v) := by
  intro d
  induction d with
  | nil => simp [dlook]
  | cons a d ih =>
    cases a with
    | mk a1 a2 =>
      simp only [List.cons_append, dlook]
      by_cases hk : a1 = k
      · rw [if_pos hk, if_pos hk]
        rfl
      · rw [if_neg hk, if_neg hk]
        exact ih

theorem dlook_none_of_any_false (k : String) :
    ∀ d : List (String × PyVal), (d.any fun p => p.1 == k) = false → dlook k d = none := by
  intro d
  induction d with
  | nil => intro _; rfl
  | cons a d ih =>
    intro hany
    cases a with
    | mk a1 a2 =>
      simp only [List.any_cons, Bool.or_eq_false_iff] at hany
      simp only [dlook]
      rw [if_neg (by simpa using hany.1)]
      exact ih hany.2

theorem dlook_set_self (d : List (String × PyVal)) (k : String) (v : PyVal) :
    dlook k (dictSet d k v) = some v := by
  unfold dictSet
  split
  next hany => exact dlook_map_set k v d hany
  next hany =>
    rw [dlook_append_last, dlook_none_of_any_false k d
      (by simp only [Bool.not_eq_true] at hany; exact hany)]
    rfl

theorem dlook_set_ne (d : List (String × PyVal)) (k k2 : String) (v : PyVal)
    (h : k2 ≠ k) : dlook k2 (dictSet d k v) = dlook k2 d := by
  unfold dictSet
  split
  next hany =>
    clear hany
    induction d with
    | nil => simp
    | cons a d ih =>
      cases a with
      | mk a1 a2 =>
        by_cases hk : a1 = k
        · simp only [List.map_cons]
          rw [if_pos (by simpa using hk)]
          simp only [dlook]
          rw [if_neg (fun hh => h hh.symm), if_neg (fun hh => h (hh.symm.trans hk))]
          exact ih
        · simp only [List.map_cons]
          rw [if_neg (by simp [show (a1 == k) = false from by simpa using hk])]
          simp only [dlook]
          by_cases hka : a1 = k2
          · rw [if_pos hka, if_pos hka]
          · rw [if_neg hka, if_neg hka]
            exact ih
  next hany =>
    clear hany
    induction d with
    | nil =>
      simp only [List.nil_append, dlook]
      rw [if_neg (fun hh => h hh.symm)]
    | cons a d ih =>
      cases a with
      | mk a1 a2 =>
        simp only [List.cons_append, dlook]
        by_cases hka : a1 = k2
        · rw [if_pos hka, if_pos hka]
        · rw [if_neg hka, if_neg hka]
          exact ih

theorem dlook_pop_self (d : List (String × PyVal)) (k : String) :
    dlook k (dictPop d k) = none := by
  unfold dictPop
  induction d with
  | nil => rfl
  | cons a d ih =>
    cases a with
    | mk a1 a2 =>
      simp only [List.filter_cons]
      by_cases hk : a1 = k
      · have hc : ((a1, a2).1 != k) = false := by simp [bne, hk]
        simp only [hc, Bool.false_eq_true, if_false]
        exact ih
      · have hc : ((a1, a2).1 != k) = true := by simp [bne]; exact hk
        simp only [hc, if_true, dlook]
        rw [if_neg hk]
        exact ih

theorem dlook_pop_ne (d : List (String × PyVal)) (k k2 : String) (h : k2 ≠ k) :
    dlook k2 (dictPop d k) = dlook k2 d := by
  unfold dictPop
  induction d with
  | nil => rfl
  | cons a d ih =>
    cases a with
    | mk a1 a2 =>
      simp only [List.filter_cons]
      by_cases hk : a1 = k
      · have hc : ((a1, a2).1 != k) = false := by simp [bne, hk]
        simp only [hc, Bool.false_eq_true, if_false]
        rw [ih]
        simp only [dlook]
        rw [if_neg (fun hh => h (hh.symm.trans hk))]
      · have hc : ((a1, a2).1 != k) = true := by simp [bne]; exact hk
        simp only [hc, if_true, dlook]
        by_cases hka : a1 = k2
        · rw [if_pos hka, if_pos hka]
        · rw [if_neg hka, if_neg hka]
          exact ih

theorem dlook_filter_mem (keys : List String) (k : String) (h : keys.contains k = true) :
    ∀ d : List (String × PyVal), dlook k (filter_extra_fields d keys) = dlook k d := by
  intro d
  induction d with
  | nil => rfl
  | cons a d ih =>
    cases a with
    | mk a1 a2 =>
      unfold filter_extra_fields at ih ⊢
      simp only [List.filter_cons]
      by_cases hk : a1 = k
      · have hc : (keys.contains (a1, a2).1) = true := by simpa [hk] using h
        simp only [hc, if_true, dlook]
        rw [if_pos hk, if_pos hk]
      · cases hc : keys.contains (a1, a2).1 with
        | true =>
          simp only [if_true, dlook]
          rw [if_neg hk, if_neg hk]
          exact ih
        | false =>
          simp only [Bool.false_eq_true, if_false]
          rw [ih]
          simp only [dlook]
          rw [if_neg hk]

theorem ingDicts_map (ds : List (List (String × PyVal))) :
    ingDicts (ds.map PyVal.vDict) = some ds := by
  induction ds with
  | nil => rfl
  | cons a ds ih => simp [ingDicts, asDict, ih]

theorem dlook_normalize_servings_ne (d : List (String × PyVal)) (k : String)
    (h : k ≠ "servings") : dlook k (normalize_servings d) = dlook k d := by
  unfold normalize_servings
  cases hs : dlook "servings" d with
  | none => rfl
  | some v =>
    cases v with
    | vStr s =>
      cases he : (s.data.takeWhile Char.isDigit).isEmpty with
      | true =>
        simp only [he, if_true]
        exact dlook_pop_ne d "servings" k h
      | false =>
        simp only [he, Bool.false_eq_true, if_false]
        exact dlook_set_ne d "servings" k _ h
    | vNone => rfl
    | vBool b => rfl
    | vInt n => rfl
    | vFloat q => rfl
    | vList xs => rfl
    | vDict f => rfl

theorem dlook_normalize_servings_str (d : List (String × PyVal)) (s : String)
    (hs : dlook "servings" d = some (.vStr s)) :
    dlook "servings" (normalize_servings d) =
      (if (s.data.takeWhile Char.isDigit).isEmpty then none
       else some (.vInt (digitsToNat (s.data.takeWhile Char.isDigit)))) := by
  unfold normalize_servings
  rw [hs]
  cases he : (s.data.takeWhile Char.isDigit).isEmpty with
  | true =>
    simp only [he, if_true]
    rw [dlook_pop_self]
  | false =>
    simp only [he, Bool.false_eq_true, if_false]
    rw [dlook_set_self]

theorem dlook_ne_nil {d : List (String × PyVal)} {k : String} {v : PyVal}
    (h : dlook k d = some v) : d.isEmpty = false := by
  cases d with
  | nil => exact absurd h (by simp [dlook])
  | cons a t => rfl

/-- Claim C6: normalization stringifies every numeric ingredient quantity, and
coerces a textual servings value to the integer given by its leading
digit run, removing the field when there is no digit prefix. -/
theorem normalize_recipe_coercions :
    (∀ (ing : List (String × PyVal)) (n : Int), dlook "quantity" ing = some (.vInt n) →
        dlook "quantity" (normalize_ingredient ing) = some (.vStr (toString n))) ∧
    (∀ (ing : List (String × PyVal)) (q : Rat), dlook "quantity" ing = some (.vFloat q) →
        dlook "quantity" (normalize_ingredient ing) = some (.vStr (ratStr q))) ∧
    (∀ (d : List (String × PyVal)) (ings : List (List (String × PyVal))),
      dlook "ingredients" d = some (.vList (ings.map PyVal.vDict)) →
      ∃ d2, normalize_recipe d = .ok d2 ∧
        dlook "ingredients" d2 =
          some (.vList (ings.map (fun i => .vDict (normalize_ingredient i)))) ∧
        (∀ s : String, dlook "servings" d = some (.vStr s) →
          dlook "servings" d2 =
            (if (s.data.takeWhile Char.isDigit).isEmpty then none
             else some (.vInt (digitsToNat (s.data.takeWhile Char.isDigit)))))) := by
  refine ⟨?_, ?_, ?_⟩
  · intro ing n h
    unfold normalize_ingredient
    rw [h]
    exact dlook_set_self ing "quantity" _
  · intro ing q h
    unfold normalize_ingredient
    rw [h]
    exact dlook_set_self ing "quantity" _
  · intro d ings h
    unfold normalize_recipe
    rw [dlook_ne_nil h, h]
    simp only [Option.isNone_some, Bool.false_or, Bool.false_eq_true, if_false, ingDicts_map]
    refine ⟨_, rfl, ?_, ?_⟩
    · rw [dlook_filter_mem allowed_fields "ingredients" (by decide),
        dlook_normalize_servings_ne _ _ (by decide),
        dlook_set_self]
    · intro s hs
      rw [dlook_filter_mem allowed_fields "servings" (by decide),
        dlook_normalize_servings_str _ s
          (by rw [dlook_set_ne d "ingredients" "servings" _ (by decide)]; exact hs)]

theorem normalize_recipe_coercions_witness :
    (∃ d2, normalize_recipe [("title", .vStr "M"), ("ingredients", .vList []),
        ("servings", .vStr "12 muffins")] = .ok d2 ∧
        dlook "servings" d2 = some (.vInt 12)) ∧
    (∃ d2, normalize_recipe [("title", .vStr "M"), ("ingredients", .vList []),
        ("servings", .vStr "a dozen")] = .ok d2 ∧
        dlook "servings" d2 = none) := by
  constructor
  · obtain ⟨d2, h1, h2, h3⟩ := normalize_recipe_coercions.2.2
      [("title", .vStr "M"), ("ingredients", .vList []), ("servings", .vStr "12 muffins")]
      [] rfl
    refine ⟨d2, h1, ?_⟩
    have := h3 "12 muffins" rfl
    simpa using this
  · obtain ⟨d2, h1, h2, h3⟩ := normalize_recipe_coercions.2.2
      [("title", .vStr "M"), ("ingredients", .vList []), ("servings", .vStr "a dozen")]
      [] rfl
    refine ⟨d2, h1, ?_⟩
    have := h3 "a dozen" rfl
    simpa using this

/-- Claim C10: an empty recipe dict, or one without the ingredients key, is
returned by normalize_recipe unchanged: no quantity stringification, no
servings coercion or removal, no field filtering. -/
theorem normalize_recipe_passthrough (d : List (String × PyVal))
    (h : d = [] ∨ dlook "ingredients" d = none) :
    normalize_recipe d = .ok d := by
  unfold normalize_recipe
  cases h with
  | inl h => subst h; rfl
  | inr h => rw [h]; simp

theorem normalize_recipe_passthrough_witness :
    normalize_recipe [("junk", .vInt 1), ("servings", .vStr "a dozen")]
      = .ok [("junk", .vInt 1), ("servings", .vStr "a dozen")] :=
  normalize_recipe_passthrough _ (Or.inr rfl)

theorem deltaField_eq (od pd : List (String × PyVal)) (k : String)
    (ho : ∀ v, dlook k od = some v → (asNum v).isSome = true)
    (hp : ∀ v, dlook k pd = some v → (asNum v).isSome = true) :
    deltaField od pd k = some (nutVal pd k - nutVal od k) := by
  unfold deltaField nutValOpt nutVal pyGet
  cases hod : dlook k od with
  | none =>
    cases hpd : dlook k pd with
    | none => rfl
    | some v =>
      obtain ⟨q, hq⟩ := Option.isSome_iff_exists.mp (hp v hpd)
      simp only [Option.getD_some, Option.getD_none, hq]
      rfl
  | some w =>
    obtain ⟨qw, hw⟩ := Option.isSome_iff_exists.mp (ho w hod)
    cases hpd : dlook k pd with
    | none =>
      simp only [Option.getD_some, Option.getD_none, hw]
      rfl
    | some v =>
      obtain ⟨q, hq⟩ := Option.isSome_iff_exists.mp (hp v hpd)
      simp only [Option.getD_some, hq, hw]

/-- Claim C7: whenever original and optimized both carry a non-empty nutrition
dict whose present entries are numeric, the computed MacroDelta is, field
by field over the seven macro fields, the optimized value minus the
original value, a missing field counting as zero. -/
theorem calculate_macro_delta_fieldwise
    (original optimized od pd : List (String × PyVal))
    (ho : dlook "nutrition" original = some (.vDict od)) (hone : od ≠ [])
    (hp : dlook "nutrition" optimized = some (.vDict pd)) (hpne : pd ≠ [])
    (hon : ∀ k v, dlook k od = some v → (asNum v).isSome = true)
    (hpn : ∀ k v, dlook k pd = some v → (asNum v).isSome = true) :
    calculate_macro_delta original optimized =
      .ok ⟨nutVal pd "calories" - nutVal od "calories",
           nutVal pd "protein_g" - nutVal od "protein_g",
           nutVal pd "fat_g" - nutVal od "fat_g",
           nutVal pd "carbs_g" - nutVal od "carbs_g",
           nutVal pd "sugar_g" - nutVal od "sugar_g",
           nutVal pd "fiber_g" - nutVal od "fiber_g",
           nutVal pd "sodium_mg" - nutVal od "sodium_mg"⟩ := by
  unfold calculate_macro_delta pyGet
  rw [ho, hp]
  simp only [Option.getD_some]
  have hfo : pyFalsy (.vDict od) = false := by
    cases od with
    | nil => exact absurd rfl hone
    | cons a t => rfl
  have hfp : pyFalsy (.vDict pd) = false := by
    cases pd with
    | nil => exact absurd rfl hpne
    | cons a t => rfl
  rw [hfo, hfp]
  simp only [Bool.or_self, Bool.false_eq_true, if_false]
  rw [show macroDeltaOpt od pd = some ⟨nutVal pd "calories" - nutVal od "calories",
           nutVal pd "protein_g" - nutVal od "protein_g",
           nutVal pd "fat_g" - nutVal od "fat_g",
           nutVal pd "carbs_g" - nutVal od "carbs_g",
           nutVal pd "sugar_g" - nutVal od "sugar_g",
           nutVal pd "fiber_g" - nutVal od "fiber_g",
           nutVal pd "sodium_mg" - nutVal od "sodium_mg"⟩ from by
    unfold macroDeltaOpt
    rw [deltaField_eq od pd "calories" (hon "calories") (hpn "calories"),
      deltaField_eq od pd "protein_g" (hon "protein_g") (hpn "protein_g"),
      deltaField_eq od pd "fat_g" (hon "fat_g") (hpn "fat_g"),
      deltaField_eq od pd "carbs_g" (hon "carbs_g") (hpn "carbs_g"),
      deltaField_eq od pd "sugar_g" (hon "sugar_g") (hpn "sugar_g"),
      deltaField_eq od pd "fiber_g" (hon "fiber_g") (hpn "fiber_g"),
      deltaField_eq od pd "sodium_mg" (hon "sodium_mg") (hpn "sodium_mg")]]

theorem calculate_macro_delta_fieldwise_witness :
    (calculate_macro_delta [("nutrition", .vDict [("sugar_g", .vFloat (243 / 10))])]
        [("nutrition", .vDict [("sugar_g", .vFloat (128 / 10))])]).map MacroDelta.sugar_g
      = .ok (-(23 / 2)) := by
  rw [calculate_macro_delta_fieldwise
    [("nutrition", .vDict [("sugar_g", .vFloat (243 / 10))])]
    [("nutrition", .vDict [("sugar_g", .vFloat (128 / 10))])]
    [("sugar_g", .vFloat (243 / 10))] [("sugar_g", .vFloat (128 / 10))]
    rfl (List.cons_ne_nil _ _) rfl (List.cons_ne_nil _ _)
    (by
      intro k v hv
      unfold dlook at hv
      split at hv
      · cases hv
        rfl
      · exact absurd hv (by simp [dlook]))
    (by
      intro k v hv
      unfold dlook at hv
      split at hv
      · cases hv
        rfl
      · exact absurd hv (by simp [dlook]))]
  have hx : nutVal [("sugar_g", PyVal.vFloat (128 / 10))] "sugar_g"
      - nutVal [("sugar_g", PyVal.vFloat (243 / 10))] "sugar_g" = -(23 / 2) := by
    show (128 / 10 : Rat) - 243 / 10 = -(23 / 2)
    norm_num
  simp only [Except.map]
  rw [hx]

theorem buildResponse_ok {orig opt diet allerg : PyVal} {md : MacroDelta}
    {resp : ProcessResponseM} (h : buildResponse orig opt diet allerg md = .ok resp) :
    ∃ d1 d2, RecipeContentM.fromDict d1 = .ok resp.original ∧
      OptimizedRecipeM.fromDict d2 = .ok resp.optimized := by
  unfold buildResponse at h
  cases h1 : requireDict orig with
  | error e =>
    rw [h1] at h
    exact Except.noConfusion h
  | ok od =>
    simp only [h1] at h
    cases h2 : RecipeContentM.fromDict od with
    | error e =>
      rw [h2] at h
      exact Except.noConfusion h
    | ok o =>
      simp only [h2] at h
      cases h3 : requireDict opt with
      | error e =>
      rw [h3] at h
      exact Except.noConfusion h
      | ok pd =>
        simp only [h3] at h
        cases h4 : OptimizedRecipeM.fromDict pd with
        | error e =>
      rw [h4] at h
      exact Except.noConfusion h
        | ok p =>
          simp only [h4] at h
          cases h5 : coerceStr diet with
          | error e =>
      rw [h5] at h
      exact Except.noConfusion h
          | ok dl =>
            simp only [h5] at h
            cases h6 : allergensFromVal allerg with
            | error e =>
      rw [h6] at h
      exact Except.noConfusion h
            | ok al =>
              simp only [h6] at h
              injection h with hv
              subst hv
              exact ⟨od, pd, h2, h4⟩

/-- Claim C2: for every input and every behaviour of the generative and storage
collaborators, run_pipeline either propagates an error or returns a
response whose original and optimized artifacts both come from a
successful validation of a complete recipe payload — never a partially
populated result. -/
theorem run_pipeline_total (maxIter : Nat) (o : PipelineOracles) (rt g : String) :
    (∃ e log, run_pipeline maxIter o rt g = (.error e, log)) ∨
    (∃ resp log d1 d2, run_pipeline maxIter o rt g = (.ok resp, log) ∧
      RecipeContentM.fromDict d1 = .ok resp.original ∧
      OptimizedRecipeM.fromDict d2 = .ok resp.optimized) := by
  simp only [run_pipeline]
  repeat' split
  all_goals try (exact Or.inl ⟨_, _, rfl⟩)
  all_goals
    rename_i resp heq
    obtain ⟨d1, d2, hh1, hh2⟩ := buildResponse_ok heq
    exact Or.inr ⟨resp, _, d1, d2, rfl, hh1, hh2⟩

/-- Claim C3: the enrichment fan-out yields a bundle only when all three calls
succeed; when one fails the first error in the bundle propagates, and at
the pipeline level a fan-out failure aborts the run right after the
router stage, with no enrichment audit records and no bundle. -/
theorem enrich_gather_no_partial :
    (∀ n a f e, n = .error e → enrich_gather n a f = .error e) ∧
    (∀ n a f v e, n = .ok v → a = .error e → enrich_gather n a f = .error e) ∧
    (∀ n a f v w e, n = .ok v → a = .ok w → f = .error e → enrich_gather n a f = .error e) ∧
    (∀ n a f t, enrich_gather n a f = .ok t →
      (∃ x, n = .ok x) ∧ (∃ y, a = .ok y) ∧ (∃ z, f = .ok z)) ∧
    (∀ (maxIter : Nat) (o : PipelineOracles) (rt g : String) (p : PyVal) (tA : Nat)
       (rr : PyVal) (tB : Nat) (dl : PyVal) (e : String),
       stageInvoke o.parse (postFilter recipe_content_fields) (rt.length / 4) = .ok (p, tA) →
       stageInvoke o.router postRouter
         ((renderJson (.vDict [("recipe", p), ("goal", .vStr g)])).length / 4) = .ok (rr, tB) →
       pyGetAttr rr "diet_label" (.vStr "balanced") = .ok dl →
       enrich_gather o.nutrition o.allergen o.flavor = .error e →
       run_pipeline maxIter o rt g =
         (.error e, [⟨"parse", p, tA⟩, ⟨"router", rr, tB⟩])) := by
  refine ⟨?_, ?_, ?_, ?_, ?_⟩
  · intro n a f e h
    subst h
    rfl
  · intro n a f v e hn ha
    subst hn
    subst ha
    rfl
  · intro n a f v w e hn ha hf
    subst hn
    subst ha
    subst hf
    rfl
  · intro n a f t h
    unfold enrich_gather at h
    cases n with
    | error e => simp at h
    | ok nv =>
      cases a with
      | error e => simp at h
      | ok av =>
        cases f with
        | error e => simp at h
        | ok fv => exact ⟨⟨nv, rfl⟩, ⟨av, rfl⟩, ⟨fv, rfl⟩⟩
  · intro maxIter o rt g p tA rr tB dl e hA hB hD hE
    unfold run_pipeline
    simp only [hA, hB, hD, hE]
    rfl

theorem enrich_gather_no_partial_witness :
    run_pipeline 1 enrichFailOracles "r" "g" =
      (.error "enrich boom",
       [⟨"parse", sampleParsed, 42⟩,
        ⟨"router", .vDict [("diet_label", .vStr "low-sugar")], 42⟩]) :=
  enrich_gather_no_partial.2.2.2.2 1 enrichFailOracles "r" "g" sampleParsed 42
    (.vDict [("diet_label", .vStr "low-sugar")]) 42 (.vStr "low-sugar") "enrich boom"
    rfl rfl rfl rfl

/-- Claim C8 counterexample: a run in which every generative stage succeeds
(all seven audit records are written) but the vector-indexer call fails;
run_pipeline then propagates the indexing error instead of returning the
finished FinalResult. -/
theorem vectordb_failure_fails_run :
    (run_pipeline 0 idxFailOracles "recipe text" "lower sugar").2.length = 7 ∧
    (run_pipeline 0 idxFailOracles "recipe text" "lower sugar").1 = .error "chroma down" :=
  ⟨rfl, rfl⟩

/-- Claim C8 amended: a failure of the vector-indexer call prevents run from
returning a FinalResult: the store call is not exception-guarded, so its
error (or an earlier stage error) always surfaces. -/
theorem vectordb_failure_propagates (maxIter : Nat) (o : PipelineOracles) (rt g : String)
    (e : String) (h : o.vectordb = .error e) :
    (run_pipeline maxIter o rt g).1.isOk = false := by
  simp only [run_pipeline, h]
  repeat' split
  all_goals simp [Except.isOk, Except.toBool]

theorem vectordb_failure_propagates_witness :
    (run_pipeline 0 idxFailOracles "r" "g").1.isOk = false :=
  vectordb_failure_propagates 0 idxFailOracles "r" "g" "chroma down" rfl

/-- Claim C9 counterexample: a run whose refinement loop performs one evaluator
call and one reviser call, yet the audit log contains exactly one record
for the refinement stage, not one per generative call: the coordinator
logs the loop once, after it finishes. -/
theorem refinement_audit_single_record :
    (evaluator_loop 1 auditOracles.evalC auditOracles.optC sampleOptimized).evals = 1 ∧
    (evaluator_loop 1 auditOracles.evalC auditOracles.optC sampleOptimized).revs = 1 ∧
    ((run_pipeline 1 auditOracles "recipe text" "lower sugar").2.countP
      (fun r => r.step_name == "evaluator")) = 1 ∧
    (run_pipeline 1 auditOracles "recipe text" "lower sugar").1.isOk = true ∧
    (1 : Nat) + 1 ≠ 1 := by
  exact ⟨rfl, rfl, rfl, rfl, by decide⟩

/-- Claim C9 amended: whatever the oracles do, the audit log of a run contains
at most one record for the refinement stage, and exactly one when the run
returns a result — the evaluator and reviser calls inside the loop are
not individually logged. -/
theorem refinement_stage_logged_once (maxIter : Nat) (o : PipelineOracles) (rt g : String) :
    ((run_pipeline maxIter o rt g).2.countP (fun r => r.step_name == "evaluator")) ≤ 1 ∧
    ((run_pipeline maxIter o rt g).1.isOk = true →
      ((run_pipeline maxIter o rt g).2.countP (fun r => r.step_name == "evaluator")) = 1) := by
  simp only [run_pipeline]
  repeat' split
  all_goals simp [List.countP_append, List.countP_cons, Except.isOk, Except.toBool]

theorem refinement_stage_logged_once_witness :
    ((run_pipeline 1 auditOracles "recipe" "goal").2.countP
      (fun r => r.step_name == "evaluator")) ≤ 1 :=
  (refinement_stage_logged_once 1 auditOracles "recipe" "goal").1

/-- Claim C4 counterexample: the text on the left is valid JSON (it parses, and
it is the rendering of a PyVal), yet the repair step rewrites the string
value None inside it, so the repaired text parses to a different
structure — repair is not a no-op pass-through on already-valid input. -/
theorem fix_none_values_alters_valid_json :
    json_loads "\x7b\"note\": \"None\"\x7d" = some (.vDict [("note", .vStr "None")]) ∧
    renderJson (.vDict [("note", .vStr "None")]) = "\x7b\"note\": \"None\"\x7d" ∧
    fix_none_values "\x7b\"note\": \"None\"\x7d" = "\x7b\"note\": \"null\"\x7d" ∧
    json_loads "\x7b\"note\": \"null\"\x7d" = some (.vDict [("note", .vStr "null")]) ∧
    PyVal.vDict [("note", .vStr "None")] ≠ PyVal.vDict [("note", .vStr "null")] := by
  refine ⟨rfl, rfl, rfl, rfl, ?_⟩
  simp

/-- Claim C4 amended: the repair is the identity on every text with no
occurrence of the token None, in particular on already-valid JSON not
containing that token, whose parsed structure is therefore unchanged. -/
theorem fix_none_values_noop_without_none_token (s : String)
    (h : hasSub noneTok s.data = false) : fix_none_values s = s :=
  fix_none_values_id h

theorem fix_none_values_noop_witness :
    fix_none_values "\x7b\"a\": [1, null]\x7d" = "\x7b\"a\": [1, null]\x7d" :=
  fix_none_values_noop_without_none_token "\x7b\"a\": [1, null]\x7d" (by decide)

theorem evaluatorLoopGo_bounds (evalC : Nat → PyVal → Except String PyVal)
    (optC : Nat → PyVal → PyVal → PyVal → Except String PyVal) :
    ∀ n e r cur, (evaluatorLoopGo evalC optC n e r cur).evals ≤ e + n ∧
      (evaluatorLoopGo evalC optC n e r cur).revs ≤ r + n := by
  intro n
  induction n with
  | zero => intro e r cur; simp [evaluatorLoopGo]
  | succ n ih =>
    intro e r cur
    simp only [evaluatorLoopGo]
    split
    · (simp; try omega)
    next ev heq =>
      split
      next d =>
        split
        · (simp; try omega)
        next sv hsv =>
          split
          · (simp; try omega)
          next s hs =>
            split
            · (simp; try omega)
            · split
              · (simp; try omega)
              next c2 hc2 =>
                have h1 := (ih (e + 1) (r + 1) c2).1
                have h2 := (ih (e + 1) (r + 1) c2).2
                exact ⟨by omega, by omega⟩
      · (simp; try omega)

/-- Claim C1: the refinement loop performs at most maxIter evaluator calls and
at most maxIter reviser calls before returning the current candidate, and
with maxIter = 0 it returns the seeded Synthesize-stage candidate
unchanged, having invoked neither the evaluator nor the reviser. -/
theorem evaluator_loop_bounded (maxIter : Nat)
    (evalC : Nat → PyVal → Except String PyVal)
    (optC : Nat → PyVal → PyVal → PyVal → Except String PyVal) (seed : PyVal) :
    (evaluator_loop maxIter evalC optC seed).evals ≤ maxIter ∧
    (evaluator_loop maxIter evalC optC seed).revs ≤ maxIter ∧
    (maxIter = 0 → evaluator_loop maxIter evalC optC seed = ⟨.ok seed, 0, 0⟩) := by
  refine ⟨?_, ?_, ?_⟩
  · simpa using (evaluatorLoopGo_bounds evalC optC maxIter 0 0 seed).1
  · simpa using (evaluatorLoopGo_bounds evalC optC maxIter 0 0 seed).2
  · intro h
    subst h
    rfl

theorem evaluator_loop_bounded_witness :
    evaluator_loop 0 (fun _ _ => .ok (.vInt 1)) (fun _ _ _ _ => .ok (.vInt 2)) (.vStr "seed")
      = ⟨.ok (.vStr "seed"), 0, 0⟩ :=
  (evaluator_loop_bounded 0 (fun _ _ => .ok (.vInt 1)) (fun _ _ _ _ => .ok (.vInt 2))
    (.vStr "seed")).2.2 rfl

theorem evalGoStepHigh (evalC : Nat → PyVal → Except String PyVal)
    (optC : Nat → PyVal → PyVal → PyVal → Except String PyVal)
    (n e r : Nat) (cur : PyVal) (d : List (String × PyVal)) (sv : PyVal) (q : Rat)
    (heval : evalC e cur = .ok (.vDict d)) (hsv : dlook "score" d = some sv)
    (hq : asNum sv = some q) (hge : 8 ≤ q) :
    evaluatorLoopGo evalC optC (n + 1) e r cur = ⟨.ok cur, e + 1, r⟩ := by
  simp only [evaluatorLoopGo, heval, hsv, hq, if_pos hge]

theorem evalGoStepLow (evalC : Nat → PyVal → Except String PyVal)
    (optC : Nat → PyVal → PyVal → PyVal → Except String PyVal)
    (n e r : Nat) (cur : PyVal) (d : List (String × PyVal)) (sv : PyVal) (q : Rat) (c2 : PyVal)
    (heval : evalC e cur = .ok (.vDict d)) (hsv : dlook "score" d = some sv)
    (hq : asNum sv = some q) (hlt : ¬ 8 ≤ q)
    (hopt : optC r cur (pyGet d "improvement_suggestions" (.vList []))
      (pyGet d "rationale" (.vStr "")) = .ok c2) :
    evaluatorLoopGo evalC optC (n + 1) e r cur
      = evaluatorLoopGo evalC optC n (e + 1) (r + 1) c2 := by
  simp only [evaluatorLoopGo, heval, hsv, hq, if_neg hlt, hopt]

/-- Claim C5: an evaluation scoring at least 8 terminates the loop immediately
with the current candidate and no further reviser call; consequently with
scores 7, 7, 9 and a bound of at least 3 the loop performs exactly 2
revise cycles and 3 evaluations and returns the candidate produced by the
second revision, the third-evaluated candidate. -/
theorem evaluator_loop_early_stop
    (evalC : Nat → PyVal → Except String PyVal)
    (optC : Nat → PyVal → PyVal → PyVal → Except String PyVal)
    (g : Nat → PyVal → PyVal → PyVal → PyVal)
    (seed : PyVal) (maxIter : Nat) (hM : 3 ≤ maxIter)
    (e0 e1 e2 : List (String × PyVal))
    (h0 : ∀ c, evalC 0 c = .ok (.vDict e0)) (hs0 : dlook "score" e0 = some (.vInt 7))
    (h1 : ∀ c, evalC 1 c = .ok (.vDict e1)) (hs1 : dlook "score" e1 = some (.vInt 7))
    (h2 : ∀ c, evalC 2 c = .ok (.vDict e2)) (hs2 : dlook "score" e2 = some (.vInt 9))
    (hg : ∀ i c sg fb, optC i c sg fb = .ok (g i c sg fb)) :
    (∀ (eC : Nat → PyVal → Except String PyVal)
       (oC : Nat → PyVal → PyVal → PyVal → Except String PyVal)
       (n e r : Nat) (cur : PyVal) (d : List (String × PyVal)) (sv : PyVal) (q : Rat),
       eC e cur = .ok (.vDict d) → dlook "score" d = some sv → asNum sv = some q → 8 ≤ q →
       evaluatorLoopGo eC oC (n + 1) e r cur = ⟨.ok cur, e + 1, r⟩) ∧
    evaluator_loop maxIter evalC optC seed =
      ⟨.ok (g 1 (g 0 seed (pyGet e0 "improvement_suggestions" (.vList []))
              (pyGet e0 "rationale" (.vStr "")))
          (pyGet e1 "improvement_suggestions" (.vList []))
          (pyGet e1 "rationale" (.vStr ""))), 3, 2⟩ := by
  constructor
  · intro eC oC n e r cur d sv q heval hsv hq hge
    exact evalGoStepHigh eC oC n e r cur d sv q heval hsv hq hge
  · obtain ⟨k, hk⟩ := Nat.le.dest hM
    rw [show evaluator_loop maxIter evalC optC seed
        = evaluatorLoopGo evalC optC maxIter 0 0 seed from rfl, ← hk, Nat.add_comm 3 k]
    rw [show evaluatorLoopGo evalC optC (k + 3) 0 0 seed
        = evaluatorLoopGo evalC optC ((k + 2) + 1) 0 0 seed from rfl]
    rw [evalGoStepLow evalC optC (k + 2) 0 0 seed e0 (.vInt 7) 7 _ (h0 seed) hs0 rfl
      (by norm_num) (hg 0 seed _ _)]
    rw [show (k + 2 : Nat) = (k + 1) + 1 from rfl]
    rw [evalGoStepLow evalC optC (k + 1) 1 1 _ e1 (.vInt 7) 7 _ (h1 _) hs1 rfl
      (by norm_num) (hg 1 _ _ _)]
    rw [evalGoStepHigh evalC optC k 2 2 _ e2 (.vInt 9) 9 (h2 _) hs2 rfl (by norm_num)]

theorem evaluator_loop_early_stop_witness :
    evaluator_loop 3
      (fun i _ => .ok (.vDict [("score", .vInt (if i == 0 || i == 1 then 7 else 9))]))
      (fun i _ _ _ => .ok (.vInt (100 + i)))
      (.vInt 0)
      = ⟨.ok (.vInt 101), 3, 2⟩ := by
  have h := (evaluator_loop_early_stop
    (fun i _ => .ok (.vDict [("score", .vInt (if i == 0 || i == 1 then 7 else 9))]))
    (fun i _ _ _ => .ok (.vInt (100 + i)))
    (fun i _ _ _ => .vInt (100 + i))
    (.vInt 0) 3 (by norm_num)
    [("score", .vInt 7)] [("score", .vInt 7)] [("score", .vInt 9)]
    (fun _ => rfl) rfl (fun _ => rfl) rfl (fun _ => rfl) rfl
    (fun _ _ _ _ => rfl)).2
  simpa using h
